import Mathlib

/-!
Verification of the slide-conversion pipeline (`slidev_converter.py`).

Strings are modelled as `List Char`; Python string operations (`strip`,
`split`, `replace`, `lower`, regular-expression substitution restricted to the
ASCII character classes actually used) are given explicit executable
definitions below, and the converter's functions are translated one-to-one.
File-system effects are modelled as an explicit trace of `FsOp` events.
-/

set_option maxRecDepth 4000

/-- ASCII model of Python's whitespace class `\s` (space, tab, newline,
carriage return, vertical tab, form feed). -/
def isPyWsChar (c : Char) : Bool :=
  c = ' ' || c = '\t' || c = '\n' || c = '\r' || c = '\x0B' || c = '\x0C'

/-- ASCII model of Python's word class `\w`: the letters `A`-`Z` (65-90)
and `a`-`z` (97-122), the digits `0`-`9` (48-57), and the underscore (95). -/
def isPyWordChar (c : Char) : Bool :=
  (65 ≤ c.toNat && c.toNat ≤ 90) || (97 ≤ c.toNat && c.toNat ≤ 122)
    || (48 ≤ c.toNat && c.toNat ≤ 57) || c.toNat = 95

/-- Python `str.strip()`: drop leading and trailing whitespace. -/
def pyStrip (l : List Char) : List Char :=
  ((l.dropWhile isPyWsChar).reverse.dropWhile isPyWsChar).reverse

/-- Helper for `pySplit`: accumulates the current word (reversed). -/
def pySplitAux : List Char → List Char → List (List Char)
  | [], cur => if cur.isEmpty then [] else [cur.reverse]
  | c :: rest, cur =>
    if isPyWsChar c then
      if cur.isEmpty then pySplitAux rest [] else cur.reverse :: pySplitAux rest []
    else pySplitAux rest (c :: cur)

/-- Python `str.split()` with no argument: split on whitespace runs,
discarding empty pieces. -/
def pySplit (l : List Char) : List (List Char) :=
  pySplitAux l []

/-- Python `' '.join(words)`. -/
def spaceJoin (ws : List (List Char)) : List Char :=
  List.intercalate [' '] ws

/-- Python `s.replace(target, repl)` for a single-character target. -/
def replaceChar (target : Char) (repl : List Char) : List Char → List Char
  | [] => []
  | c :: rest => (if c = target then repl else [c]) ++ replaceChar target repl rest

/-- The converter's angle-bracket escaping:
`text.replace('<', '&lt;').replace('>', '&gt;')`. -/
def escapeText (l : List Char) : List Char :=
  replaceChar '>' ('&' :: 'g' :: 't' :: ';' :: []) (replaceChar '<' ('&' :: 'l' :: 't' :: ';' :: []) l)

/-- Decimal digit as a character (model of Python `str(n)` digit output). -/
def digitChar : Nat → Char
  | 0 => '0' | 1 => '1' | 2 => '2' | 3 => '3' | 4 => '4'
  | 5 => '5' | 6 => '6' | 7 => '7' | 8 => '8' | 9 => '9'
  | _ => '0'

/-- Model of Python `str(n)` for a natural number. -/
def natRepr (n : Nat) : List Char :=
  if h : n < 10 then [digitChar n]
  else natRepr (n / 10) ++ [digitChar (n % 10)]
decreasing_by exact Nat.div_lt_self (Nat.lt_of_lt_of_le (by decide) (Nat.le_of_not_lt h)) (by decide)

/-- One content entry of a slide.  The Python code stores either a
`(level, text)` tuple (deck extractor) or a plain string (plain-markup
extractor); this tagged type mirrors that duck typing. -/
inductive ContentItem
  | levText (level : Nat) (text : List Char)
  | plain (text : List Char)
deriving DecidableEq, Repr

/-- The text carried by a content entry. -/
def ContentItem.text : ContentItem → List Char
  | .levText _ t => t
  | .plain t => t

/-- The `SlideContent` dataclass. -/
structure SlideContent where
  title : List Char
  content : List ContentItem
  slide_type : List Char := "default".toList
  layout : List Char := "default".toList
  notes : List Char := []
  images : List (List Char) := []
deriving DecidableEq, Repr

/-- `parse_google_doc_content`: state of the line fold — slides emitted so
far and the in-progress slide, if any. -/
def gdocPush : List SlideContent × Option SlideContent → List SlideContent
  | (slides, some s) => slides ++ [s]
  | (slides, none) => slides

/-- One step of `parse_google_doc_content`'s line loop. -/
def gdocStep (acc : List SlideContent × Option SlideContent) (raw : List Char) :
    List SlideContent × Option SlideContent :=
  let line := pyStrip raw
  if line.isEmpty then acc
  else if ("# ".toList).isPrefixOf line then
    (gdocPush acc, some { title := line.drop 2, content := [], slide_type := "title".toList })
  else if ("## ".toList).isPrefixOf line || ("### ".toList).isPrefixOf line then
    (gdocPush acc,
      some { title := pyStrip (line.filter (fun c => c ≠ '#')), content := [],
             slide_type := "section".toList })
  else if ("* ".toList).isPrefixOf line || ("- ".toList).isPrefixOf line then
    match acc.2 with
    | some s => (acc.1, some { s with content := s.content ++ [.plain line] })
    | none =>
      (acc.1, some { title := "Content".toList, content := [.plain line],
                     slide_type := "bullets".toList })
  else acc

/-- `parse_google_doc_content`: split on newlines, fold the line loop, and
append any still-open slide. -/
def parseGoogleDocContent (content : List Char) : List SlideContent :=
  gdocPush ((content.splitOn '\n').foldl gdocStep ([], none))

/-- Outcome of reading an image shape's blob: the bytes, or the exception
message when the read raises. -/
inductive BlobRead
  | ok (data : List Nat)
  | err (msg : List Char)
deriving DecidableEq, Repr

/-- A shape of a native deck slide, as the extractor discriminates them:
an image-bearing shape (whose blob read may raise), a shape with a
paragraph-structured text frame (`(level, text)` per paragraph), a shape
with only flat text, or anything else.  The title placeholder is carried
separately on `PSlide` because the code skips the shape identical to
`slide.shapes.title` during content extraction. -/
inductive ShapeKind
  | image (blob : BlobRead)
  | textFrame (paragraphs : List (Nat × List Char))
  | flatText (text : List Char)
  | other
deriving DecidableEq, Repr

/-- A staged image: generated filename paired with the binary payload. -/
structure MediaAsset where
  filename : List Char
  data : List Nat
deriving DecidableEq, Repr

/-- A native deck slide as seen by `parse_powerpoint_slide`: the text of the
title placeholder when one exists, the non-title shapes, and the optional
speaker-notes text. -/
structure PSlide where
  titleShapeText : Option (List Char) := none
  shapes : List ShapeKind := []
  notesText : Option (List Char) := none
deriving DecidableEq, Repr

/-- Image filename `slide_<slideNum+1>_image_<k>.png`. -/
def imageFilename (slideNum k : Nat) : List Char :=
  "slide_".toList ++ natRepr (slideNum + 1) ++ "_image_".toList ++ natRepr k ++ ".png".toList

/-- One iteration of the shape loop of `parse_powerpoint_slide`, carrying
the images and content accumulated so far.  A failed blob read drops the
image (the code logs a warning and continues). -/
def shapeStep (slideNum : Nat) (acc : List MediaAsset × List ContentItem) (sh : ShapeKind) :
    List MediaAsset × List ContentItem :=
  match sh with
  | .image (BlobRead.ok data) =>
    (acc.1 ++ [{ filename := imageFilename slideNum (acc.1.length + 1), data := data }], acc.2)
  | .image (BlobRead.err _) => acc
  | .textFrame paras =>
    (acc.1, acc.2 ++ paras.filterMap (fun p =>
      let t := pyStrip p.2
      if t.isEmpty then none else some (.levText p.1 (escapeText t))))
  | .flatText raw =>
    let t := pyStrip raw
    if t.isEmpty then acc
    else if t.contains '\n' then
      (acc.1, acc.2 ++ (t.splitOn '\n').filterMap (fun ln =>
        let l2 := pyStrip ln
        if l2.isEmpty then none else some (.levText 0 (escapeText l2))))
    else (acc.1, acc.2 ++ [.levText 0 (escapeText t)])
  | .other => acc

/-- Title extraction: `' '.join(title.text.strip().split())` followed by
angle-bracket escaping; empty when the slide has no title placeholder. -/
def extractTitle (s : PSlide) : List Char :=
  match s.titleShapeText with
  | some t => escapeText (spaceJoin (pySplit (pyStrip t)))
  | none => []

/-- The slide-type chain of `parse_powerpoint_slide` (lines 124-130). -/
def slideTypeOf (slideNum : Nat) (title : List Char) (content : List ContentItem) : List Char :=
  if slideNum = 0 then "title".toList
  else if content.isEmpty && !title.isEmpty then "section".toList
  else if 3 < content.length then "bullets".toList
  else "default".toList

/-- `parse_powerpoint_slide`: returns the `SlideContent` together with the
staged media assets (the code appends those to `self._temp_images`). -/
def parsePowerpointSlide (s : PSlide) (slideNum : Nat) : SlideContent × List MediaAsset :=
  let title := extractTitle s
  let ic := s.shapes.foldl (shapeStep slideNum) ([], [])
  let notes := match s.notesText with | some t => pyStrip t | none => []
  ({ title := if title.isEmpty then "Slide ".toList ++ natRepr (slideNum + 1) else title,
     content := ic.2,
     slide_type := slideTypeOf slideNum title ic.2,
     layout := "default".toList,
     notes := notes,
     images := ic.1.map (·.filename) }, ic.1)

/-- Errors of the conversion pipeline; the missing-backend case mirrors
`raise ImportError(...)`. -/
inductive ConvError
  | importError (msg : List Char)
deriving DecidableEq, Repr

/-- The `ImportError` message of `extract_from_powerpoint`. -/
def importErrorMsg : List Char :=
  "python-pptx library required for PowerPoint processing".toList

/-- `extract_from_powerpoint`: fails when the backend is unavailable,
otherwise parses every slide in order. -/
def extractFromPowerpoint (avail : Bool) (deck : List PSlide) :
    Except ConvError (List (SlideContent × List MediaAsset)) :=
  if avail then .ok (deck.enum.map (fun p => parsePowerpointSlide p.2 p.1))
  else .error (.importError importErrorMsg)

/-- The code's YAML "escaping" of the title: `f'"{title}"'`. -/
def quoteTitle (t : List Char) : List Char :=
  '"' :: (t ++ ['"'])

/-- `generate_frontmatter`, transcribed literally. -/
def generateFrontmatter (title author : List Char) : List Char :=
  "---\ntheme: seriph\nbackground: https://source.unsplash.com/1920x1080/?java,programming\nclass: text-center\nhighlighter: shiki\nlineNumbers: false\ninfo: |\n  ## ".toList
  ++ title
  ++ "\n  \n  By ".toList
  ++ author
  ++ "\n  \n  Learn more at [KouseniT](https://kousenit.com)\ndrawings:\n  persist: false\ntransition: slide-left\ntitle: ".toList
  ++ quoteTitle title
  ++ "\nmdc: true\n---".toList

/-- One rendered content line: indentation by `2 * level` spaces for tuple
entries, no indentation for plain-string entries. -/
def contentLine : ContentItem → List Char
  | .levText lev t => List.replicate (2 * lev) ' ' ++ "- ".toList ++ t ++ ['\n']
  | .plain t => "- ".toList ++ t ++ ['\n']

/-- The `<v-clicks>` block wrapping the rendered content lines. -/
def vClicksBlock (content : List ContentItem) : List Char :=
  "\n<v-clicks>\n\n".toList ++ (content.map contentLine).flatten ++ "\n</v-clicks>".toList

/-- One rendered image tag. -/
def imageTag (img : List Char) : List Char :=
  "<img src=\"./".toList ++ img
  ++ "\" alt=\"Image\" style=\"max-width: 80%; max-height: 400px; margin: 20px auto; display: block;\" />\n\n".toList

/-- The image block appended to a non-title slide (empty when the slide has
no image references). -/
def imagesBlock (imgs : List (List Char)) : List Char :=
  if imgs.isEmpty then [] else "\n\n".toList ++ (imgs.map imageTag).flatten

/-- `convert_slide_to_markdown`, dispatched on `slide_type`. -/
def convertSlideToMarkdown (s : SlideContent) : List Char :=
  if s.slide_type = "title".toList then
    "\n# ".toList ++ s.title
    ++ "\n\n<div class=\"pt-12\">\n  <span @click=\"$slidev.nav.next\" class=\"px-2 py-1 rounded cursor-pointer\" hover=\"bg-white bg-opacity-10\">\n    Press Space for next page <carbon:arrow-right class=\"inline\"/>\n  </span>\n</div>\n".toList
  else if s.slide_type = "section".toList then
    "\n# ".toList ++ s.title ++ "\n\n".toList
    ++ (if s.content.isEmpty then [] else vClicksBlock s.content)
    ++ imagesBlock s.images ++ "\n".toList
  else
    "\n# ".toList ++ s.title ++ "\n\n".toList
    ++ vClicksBlock s.content
    ++ imagesBlock s.images ++ "\n".toList

/-- `add_closing_slide`, transcribed literally. -/
def addClosingSlide (author : List Char) : List Char :=
  "\n# Thank You!\n\n<div class=\"text-center\">\n\n## Questions?\n\n<div class=\"pt-12\">\n  <span class=\"text-6xl\"><carbon:logo-github /></span>\n</div>\n\n**".toList
  ++ author
  ++ "**  \n*Author, Speaker, Java & AI Expert*\n\n[kousenit.com](https://kousenit.com) | [@kenkousen](https://twitter.com/kenkousen)\n\n</div>\n".toList

/-- The `---` separator block placed between top-level blocks. -/
def sepBlock : List Char :=
  "---".toList

/-- The list of top-level blocks the converter joins with a newline:
frontmatter, then each slide's fragment with a separator before every slide
except the first, then a final separator and the closing slide. -/
def assembleBlocks (title author : List Char) (slides : List SlideContent) :
    List (List Char) :=
  [generateFrontmatter title author]
  ++ slides.enum.flatMap (fun p =>
      (if 0 < p.1 then [sepBlock] else []) ++ [convertSlideToMarkdown p.2])
  ++ [sepBlock, addClosingSlide author]

/-- `"\n".join(...)`. -/
def joinNL (blocks : List (List Char)) : List Char :=
  List.intercalate ['\n'] blocks

/-- Character class kept by `re.sub(r'[^\w\s-]', '', title)`. -/
def sanitizeKeep (c : Char) : Bool :=
  isPyWordChar c || isPyWsChar c || c = '-'

/-- Character class of `re.sub(r'[-\s]+', '-', ...)`'s pattern. -/
def isRunChar (c : Char) : Bool :=
  isPyWsChar c || c = '-'

/-- Replace every maximal run of whitespace/hyphen characters by a single
hyphen (the flag records whether the previous character was in a run). -/
def collapseAux : Bool → List Char → List Char
  | _, [] => []
  | inRun, c :: rest =>
    if isRunChar c then
      if inRun then collapseAux true rest else '-' :: collapseAux true rest
    else c :: collapseAux false rest

/-- `sanitize_filename`: drop characters outside `[\w\s-]`, collapse
whitespace/hyphen runs to a single hyphen, lowercase. -/
def sanitizeFilename (t : List Char) : List Char :=
  (collapseAux false (t.filter sanitizeKeep)).map Char.toLower

/-- File-system events of one conversion run, in program order. -/
inductive FsOp
  | readInput
  | mkdirOp (path : List Char)
  | writeImage (filename : List Char)
  | writeSlides (path : List Char)
deriving DecidableEq, Repr

/-- `convert_powerpoint_to_slidev`, with its file-system side effects made
explicit as an ordered trace: the input deck is only read after the
dependency check, the output directory is created after extraction, then
the staged images and finally `slides.md` are written. -/
def convertPowerpointToSlidev (avail : Bool) (deck : List PSlide)
    (stem author : List Char) : Except ConvError (List Char) × List FsOp :=
  match extractFromPowerpoint avail deck with
  | .error e => (.error e, [])
  | .ok parsed =>
    let slides := parsed.map Prod.fst
    let tempImages := (parsed.map Prod.snd).flatten
    let title := match slides.head? with | some s => s.title | none => stem
    let dir := sanitizeFilename title
    (.ok (joinNL (assembleBlocks title author slides)),
     [.readInput, .mkdirOp dir]
       ++ tempImages.map (fun a => FsOp.writeImage a.filename)
       ++ [.writeSlides (dir ++ "/slides.md".toList)])

/-- Written from the spec's words (§3, §4.1): `slideType` as a function of
the slide ordinal, emptiness of the extracted title, and content length. -/
def specClassify (ordinal : Nat) (titleEmpty : Bool) (contentLen : Nat) : List Char :=
  if ordinal = 0 then "title".toList
  else if contentLen = 0 && !titleEmpty then "section".toList
  else if 3 < contentLen then "bullets".toList
  else "default".toList

/-- Written from the spec's words (§4.6): strip every character that is not
alphanumeric, whitespace, or hyphen; collapse whitespace/hyphen runs to a
single hyphen; lowercase. -/
def specSanitize (t : List Char) : List Char :=
  (collapseAux false (t.filter (fun c => c.isAlphanum || isPyWsChar c || c = '-'))).map Char.toLower

/-- Scanner for the body of a double-quoted value: a backslash escapes the
next character, and the one unescaped double quote must be the final
character. -/
def quotedBodyOk : List Char → Bool
  | [] => false
  | ['"'] => true
  | '"' :: _ :: _ => false
  | '\\' :: _ :: rest => quotedBodyOk rest
  | _ :: rest => quotedBodyOk rest

/-- Written from the spec's words (§4.3): a well-formed quoted value opens
with a double quote and closes with the single unescaped double quote. -/
def wellFormedQuoted (l : List Char) : Bool :=
  match l with
  | '"' :: rest => quotedBodyOk rest
  | _ => false

/-- A list of characters is collapsed when every whitespace/hyphen-class
character in it is a hyphen that is not followed by another
whitespace/hyphen-class character.  `collapseAux false` is the identity on
such lists. -/
def sepOk : List Char → Bool
  | [] => true
  | [c] => !isRunChar c || c = '-'
  | c :: d :: rest => (!isRunChar c || (c = '-' && !isRunChar d)) && sepOk (d :: rest)

/-- A text field free of raw angle brackets. -/
def noAngles (l : List Char) : Prop :=
  '<' ∉ l ∧ '>' ∉ l


/-! ## Helper lemmas -/

theorem char_ofNat_toNat (n : Nat) (h : n < 55296) : (Char.ofNat n).toNat = n := by
  rw [Char.ofNat]
  rw [dif_pos (Or.inl h)]
  rfl

theorem toLower_toNat (c : Char) :
    (Char.toLower c).toNat = if 65 ≤ c.toNat ∧ c.toNat ≤ 90 then c.toNat + 32 else c.toNat := by
  rw [Char.toLower]
  by_cases h : c.toNat ≥ 65 ∧ c.toNat ≤ 90
  · rw [if_pos h, if_pos ⟨h.1, h.2⟩, char_ofNat_toNat]
    omega
  · rw [if_neg h, if_neg]
    intro hc
    exact h ⟨hc.1, hc.2⟩

theorem toLower_eq_self (c : Char) (h : ¬(65 ≤ c.toNat ∧ c.toNat ≤ 90)) :
    Char.toLower c = c := by
  rw [Char.toLower, if_neg]
  intro hc
  exact h ⟨hc.1, hc.2⟩

theorem char_ne_of_toNat_ne (c d : Char) (h : c.toNat ≠ d.toNat) : c ≠ d := by
  intro he
  exact h (congrArg Char.toNat he)

theorem isPyWsChar_eq_false_of_toNat (c : Char)
    (h : c.toNat ≠ 32 ∧ c.toNat ≠ 9 ∧ c.toNat ≠ 10 ∧ c.toNat ≠ 13 ∧ c.toNat ≠ 11 ∧ c.toNat ≠ 12) :
    isPyWsChar c = false := by
  have h32 := char_ne_of_toNat_ne c ' ' (by simpa using h.1)
  have h9 := char_ne_of_toNat_ne c '\t' (by simpa using h.2.1)
  have h10 := char_ne_of_toNat_ne c '\n' (by simpa using h.2.2.1)
  have h13 := char_ne_of_toNat_ne c '\r' (by simpa using h.2.2.2.1)
  have h11 := char_ne_of_toNat_ne c '\x0B' (by simpa using h.2.2.2.2.1)
  have h12 := char_ne_of_toNat_ne c '\x0C' (by simpa using h.2.2.2.2.2)
  simp [isPyWsChar, h32, h9, h10, h13, h11, h12]

theorem isRunChar_eq_false_of_toNat (c : Char)
    (h : c.toNat ≠ 32 ∧ c.toNat ≠ 9 ∧ c.toNat ≠ 10 ∧ c.toNat ≠ 13 ∧ c.toNat ≠ 11 ∧ c.toNat ≠ 12 ∧ c.toNat ≠ 45) :
    isRunChar c = false := by
  have hws := isPyWsChar_eq_false_of_toNat c ⟨h.1, h.2.1, h.2.2.1, h.2.2.2.1, h.2.2.2.2.1, h.2.2.2.2.2.1⟩
  have h45 := char_ne_of_toNat_ne c '-' (by simpa using h.2.2.2.2.2.2)
  simp [isRunChar, hws, h45]

theorem isRunChar_word_eq_false (c : Char) (h : isPyWordChar c = true) :
    isRunChar c = false := by
  simp only [isPyWordChar, Bool.or_eq_true, Bool.and_eq_true, decide_eq_true_eq] at h
  apply isRunChar_eq_false_of_toNat
  omega

theorem word_toLower (c : Char) (h : isPyWordChar c = true) :
    isPyWordChar (Char.toLower c) = true := by
  simp only [isPyWordChar, Bool.or_eq_true, Bool.and_eq_true, decide_eq_true_eq] at h ⊢
  rw [toLower_toNat]
  split
  · omega
  · omega

theorem toLower_toLower (c : Char) (hc : isPyWordChar c = true ∨ c = '-') :
    Char.toLower (Char.toLower c) = Char.toLower c := by
  apply toLower_eq_self
  rw [toLower_toNat]
  rcases hc with h | h
  · simp only [isPyWordChar, Bool.or_eq_true, Bool.and_eq_true, decide_eq_true_eq] at h
    split
    · omega
    · omega
  · subst h
    decide

theorem toLower_dash : Char.toLower '-' = '-' := by decide

theorem toLower_run_facts (c : Char) (h : isPyWordChar c = true) :
    isRunChar (Char.toLower c) = false :=
  isRunChar_word_eq_false _ (word_toLower c h)

/-! Membership facts about `collapseAux` and the sanitizer. -/

theorem mem_collapseAux (c : Char) :
    ∀ (l : List Char) (b : Bool), c ∈ collapseAux b l →
      c = '-' ∨ (c ∈ l ∧ isRunChar c = false) := by
  intro l
  induction l with
  | nil => intro b h; simp [collapseAux] at h
  | cons d rest ih =>
    intro b h
    by_cases hd : isRunChar d = true
    · rcases b with _ | _
      · rw [collapseAux, if_pos hd] at h
        simp only [Bool.false_eq_true, if_false, List.mem_cons] at h
        rcases h with h | h
        · exact Or.inl h
        · rcases ih true h with h' | h'
          · exact Or.inl h'
          · exact Or.inr ⟨List.mem_cons_of_mem _ h'.1, h'.2⟩
      · rw [collapseAux, if_pos hd, if_pos rfl] at h
        rcases ih true h with h' | h'
        · exact Or.inl h'
        · exact Or.inr ⟨List.mem_cons_of_mem _ h'.1, h'.2⟩
    · rw [collapseAux, if_neg hd] at h
      rcases List.mem_cons.mp h with h | h
      · subst h
        exact Or.inr ⟨List.mem_cons_self _ _, Bool.eq_false_iff.mpr hd⟩
      · rcases ih false h with h' | h'
        · exact Or.inl h'
        · exact Or.inr ⟨List.mem_cons_of_mem _ h'.1, h'.2⟩

theorem mem_sanitize_pre (x : List Char) (c : Char)
    (h : c ∈ collapseAux false (x.filter sanitizeKeep)) :
    c = '-' ∨ isPyWordChar c = true := by
  rcases mem_collapseAux c _ false h with h' | h'
  · exact Or.inl h'
  · right
    have hk : sanitizeKeep c = true := List.of_mem_filter h'.1
    have hnr := h'.2
    simp only [isRunChar, Bool.or_eq_false_iff] at hnr
    simp only [sanitizeKeep, Bool.or_eq_true] at hk
    rcases hk with (hw | hws) | hdash
    · exact hw
    · simp [hnr.1] at hws
    · simp [hnr.2] at hdash

theorem mem_sanitizeFilename (x : List Char) (c : Char) (h : c ∈ sanitizeFilename x) :
    isPyWordChar c = true ∨ c = '-' := by
  simp only [sanitizeFilename, List.mem_map] at h
  obtain ⟨c0, hc0, rfl⟩ := h
  rcases mem_sanitize_pre x c0 hc0 with h' | h'
  · subst h'
    exact Or.inr toLower_dash
  · exact Or.inl (word_toLower c0 h')

theorem collapseAux_true_head (l : List Char) (d : Char) (rest : List Char)
    (h : collapseAux true l = d :: rest) : isRunChar d = false := by
  induction l generalizing d rest with
  | nil => simp [collapseAux] at h
  | cons c tail ih =>
    by_cases hc : isRunChar c = true
    · rw [collapseAux, if_pos hc, if_pos rfl] at h
      exact ih d rest h
    · rw [collapseAux, if_neg hc] at h
      rw [List.cons.injEq] at h
      rw [← h.1]
      exact Bool.eq_false_iff.mpr hc

theorem sepOk_collapseAux (l : List Char) : ∀ b, sepOk (collapseAux b l) = true := by
  induction l with
  | nil => intro b; simp [collapseAux, sepOk]
  | cons c rest ih =>
    intro b
    by_cases hc : isRunChar c = true
    · rcases b with _ | _
      · rw [collapseAux, if_pos hc]
        simp only [Bool.false_eq_true, if_false]
        rcases ht : collapseAux true rest with _ | ⟨d, t2⟩
        · simp [sepOk]
        · have hd := collapseAux_true_head rest d t2 ht
          have := ih true
          rw [ht] at this
          simp [sepOk, hd, this]
      · rw [collapseAux, if_pos hc, if_pos rfl]
        exact ih true
    · rw [collapseAux, if_neg hc]
      rcases ht : collapseAux false rest with _ | ⟨d, t2⟩
      · simp [sepOk, Bool.eq_false_iff.mpr hc]
      · have := ih false
        rw [ht] at this
        simp [sepOk, Bool.eq_false_iff.mpr hc, this]

theorem collapseAux_false_fix (l : List Char) (h : sepOk l = true) :
    collapseAux false l = l := by
  induction l with
  | nil => simp [collapseAux]
  | cons c rest ih =>
    by_cases hc : isRunChar c = true
    · rcases rest with _ | ⟨d, t⟩
      · have hcd : c = '-' := by
          simp only [sepOk, hc, Bool.not_true, Bool.false_or, decide_eq_true_eq] at h
          exact h
        subst hcd
        simp [collapseAux]
      · simp only [sepOk, hc, Bool.not_true, Bool.false_or, Bool.and_eq_true,
          decide_eq_true_eq, Bool.not_eq_true'] at h
        obtain ⟨⟨hcd, hd⟩, hrest⟩ := h
        subst hcd
        have hdn : ¬ isRunChar d = true := by simp [hd]
        have ihres : collapseAux false (d :: t) = d :: t := ih hrest
        rw [collapseAux, if_neg hdn] at ihres
        injection ihres with _ ht
        rw [collapseAux, if_pos hc]
        simp only [Bool.false_eq_true, if_false]
        rw [collapseAux, if_neg hdn, ht]
    · rcases rest with _ | ⟨d, t⟩
      · simp [collapseAux, hc]
      · simp only [sepOk, hc, Bool.not_false, Bool.true_or, Bool.true_and] at h
        rw [collapseAux, if_neg hc, ih h]

theorem sepOk_map_toLower (l : List Char) (hs : sepOk l = true)
    (hm : ∀ c ∈ l, isPyWordChar c = true ∨ c = '-') :
    sepOk (l.map Char.toLower) = true := by
  induction l with
  | nil => simp [sepOk]
  | cons c rest ih =>
    rcases rest with _ | ⟨d, t⟩
    · simp only [List.map_cons, List.map_nil]
      rcases hm c (List.mem_cons_self _ _) with hw | hdash
      · simp [sepOk, toLower_run_facts c hw]
      · subst hdash
        simp [sepOk, toLower_dash]
    · simp only [sepOk, Bool.and_eq_true] at hs
      have htail := ih hs.2 (fun a ha => hm a (List.mem_cons_of_mem _ ha))
      simp only [List.map_cons] at htail ⊢
      rcases hm c (List.mem_cons_self _ _) with hw | hdash
      · simp [sepOk, toLower_run_facts c hw, htail]
      · subst hdash
        have hrun : isRunChar '-' = true := by decide
        have hd : isRunChar d = false := by
          cases hdc : isRunChar d
          · rfl
          · exfalso
            simp [hrun, hdc] at hs
        have hdword : isPyWordChar d = true := by
          rcases hm d (List.mem_cons_of_mem _ (List.mem_cons_self _ _)) with h' | h'
          · exact h'
          · subst h'
            rw [hrun] at hd
            cases hd
        simp [sepOk, toLower_dash, toLower_run_facts d hdword, htail]

theorem sepOk_sanitizeFilename (x : List Char) : sepOk (sanitizeFilename x) = true := by
  rw [sanitizeFilename]
  apply sepOk_map_toLower
  · exact sepOk_collapseAux _ false
  · intro c hc
    rcases mem_sanitize_pre x c hc with h | h
    · exact Or.inr h
    · exact Or.inl h

theorem filter_keep_sanitizeFilename (x : List Char) :
    (sanitizeFilename x).filter sanitizeKeep = sanitizeFilename x := by
  rw [List.filter_eq_self]
  intro c hc
  rcases mem_sanitizeFilename x c hc with h | h
  · simp [sanitizeKeep, h]
  · subst h
    simp [sanitizeKeep]

/-- C9: the filename sanitizer is idempotent: for every string `x`,
`sanitize_filename (sanitize_filename x) = sanitize_filename x`. -/
theorem sanitizeFilename_idempotent (x : List Char) :
    sanitizeFilename (sanitizeFilename x) = sanitizeFilename x := by
  conv_lhs => rw [sanitizeFilename]
  rw [filter_keep_sanitizeFilename]
  rw [collapseAux_false_fix _ (sepOk_sanitizeFilename x)]
  rw [sanitizeFilename, List.map_map]
  apply List.map_congr_left
  intro c hc
  rcases mem_sanitize_pre x c hc with h | h
  · exact toLower_toLower c (Or.inr h)
  · exact toLower_toLower c (Or.inl h)

/-! ## Claim theorems -/

/-- C1, counterexample: on the four-line input the second produced Slide's
content is NOT the two `(0, "point a")`/`(0, "point b")` pairs with the
bullet marker stripped — the code appends the raw stripped line, marker
included, as a plain string. -/
theorem c1_counterexample :
    ((parseGoogleDocContent ("# My Title\n## Section One\n* point a\n* point b".toList)).get? 1).map
        SlideContent.content ≠
      some [ContentItem.levText 0 "point a".toList, ContentItem.levText 0 "point b".toList] := by
  decide

/-- C1, amended: the four-line input yields exactly two Slides — the first
with title "My Title", type "title" and empty content; the second with title
"Section One", type "section" and content equal to the two raw stripped
bullet lines "* point a" and "* point b", stored as plain strings with the
bullet marker retained and no indentation level. -/
theorem c1_amended :
    parseGoogleDocContent ("# My Title\n## Section One\n* point a\n* point b".toList) =
      [{ title := "My Title".toList, content := [], slide_type := "title".toList },
       { title := "Section One".toList,
         content := [.plain "* point a".toList, .plain "* point b".toList],
         slide_type := "section".toList }] := by
  decide

/-- C2, counterexample: the plain-markup extractor performs no angle-bracket
escaping — the input `# a<b` produces a Slide whose title contains a raw
`<` character. -/
theorem c2_counterexample :
    (parseGoogleDocContent ("# a<b".toList)).map SlideContent.title = ["a<b".toList]
      ∧ '<' ∈ "a<b".toList := by
  decide

/-- C3, counterexample: the plain-markup extractor classifies by line marker,
not by ordinal — the one-line input `## A` yields a Slide at ordinal 0 whose
slideType is "section", where the claimed classification function requires
ordinal 0 to imply "title". -/
theorem c3_counterexample :
    (parseGoogleDocContent ("## A".toList)).map SlideContent.slide_type = ["section".toList]
      ∧ "section".toList ≠ "title".toList := by
  decide

/-- C6, counterexample: the sanitizer keeps the underscore (the regex class
`\w` includes it), while the claim requires every character that is not
alphanumeric, whitespace, or hyphen to be removed — on input "a_b" the code
returns "a_b" whereas the claimed behaviour (`specSanitize`) returns "ab". -/
theorem c6_counterexample :
    sanitizeFilename "a_b".toList = "a_b".toList
      ∧ specSanitize "a_b".toList = "ab".toList
      ∧ sanitizeFilename "a_b".toList ≠ specSanitize "a_b".toList := by
  decide

/-- C6, amended: the sanitizer removes every character that is not a word
character (alphanumeric or underscore), whitespace, or hyphen, collapses
whitespace/hyphen runs into a single hyphen and lowercases the result — so
every output character is a word character or a hyphen — and on the spec's
example `sanitize("AI & ML: 2025!") = "ai-ml-2025"`. -/
theorem c6_amended :
    sanitizeFilename "AI & ML: 2025!".toList = "ai-ml-2025".toList
      ∧ ∀ (x : List Char) (c : Char), c ∈ sanitizeFilename x →
          (isPyWordChar c = true ∨ c = '-') := by
  constructor
  · decide
  · intro x c hc
    exact mem_sanitizeFilename x c hc

/-- C6, amended, witness: the amended theorem applied at the concrete input
"AI & ML: 2025!" and the concrete output character 'a'. -/
theorem c6_amended_witness :
    isPyWordChar 'a' = true ∨ 'a' = '-' :=
  c6_amended.2 ("AI & ML: 2025!".toList) 'a' (by decide)

/-- C8: the header generator merely wraps the title in double quotes without
escaping; for the title `say "hi"` the emitted quoted value contains an
unescaped interior double quote and is not a well-formed quoted value,
although quoting does work for a title without embedded quotes. -/
theorem c8_bug :
    wellFormedQuoted (quoteTitle ('s' :: 'a' :: 'y' :: ' ' :: '"' :: 'h' :: 'i' :: '"' :: [])) = false
      ∧ wellFormedQuoted (quoteTitle "plain title".toList) = true := by
  decide

/-- C7: when the deck-extraction backend is unavailable, conversion fails
with the distinguishable `ImportError` and the file-system trace is empty —
no file or directory is read, created, or written. -/
theorem c7_missing_dependency (deck : List PSlide) (stem author : List Char) :
    convertPowerpointToSlidev false deck stem author =
      (.error (.importError importErrorMsg), []) := by
  rfl

/-- C10: the rendered fragment of a title-type Slide depends only on its
title — two title-type Slides with equal titles render to identical output
whatever their content, notes and images. -/
theorem c10_title_render (s1 s2 : SlideContent)
    (h1 : s1.slide_type = "title".toList) (h2 : s2.slide_type = "title".toList)
    (ht : s1.title = s2.title) :
    convertSlideToMarkdown s1 = convertSlideToMarkdown s2 := by
  rw [convertSlideToMarkdown, convertSlideToMarkdown, if_pos h1, if_pos h2, ht]

/-- C10, witness: two concrete title-type Slides with the same title but
different content, notes and images render identically. -/
theorem c10_title_render_witness :
    convertSlideToMarkdown
        { title := "Intro".toList, content := [.plain "x".toList],
          slide_type := "title".toList, notes := "speaker notes".toList,
          images := ["slide_1_image_1.png".toList] } =
      convertSlideToMarkdown
        { title := "Intro".toList, content := [], slide_type := "title".toList } :=
  c10_title_render _ _ rfl rfl rfl

theorem mem_replaceChar (t : Char) (r : List Char) (l : List Char) (c : Char)
    (h : c ∈ replaceChar t r l) : c ∈ r ∨ (c ∈ l ∧ c ≠ t) := by
  induction l with
  | nil => simp [replaceChar] at h
  | cons d rest ih =>
    rw [replaceChar] at h
    rcases List.mem_append.mp h with h' | h'
    · by_cases hd : d = t
      · rw [if_pos hd] at h'
        exact Or.inl h'
      · rw [if_neg hd] at h'
        have hcd : c = d := List.mem_singleton.mp h'
        subst hcd
        exact Or.inr ⟨List.mem_cons_self _ _, hd⟩
    · rcases ih h' with h'' | h''
      · exact Or.inl h''
      · exact Or.inr ⟨List.mem_cons_of_mem _ h''.1, h''.2⟩

theorem escapeText_noAngles (l : List Char) : noAngles (escapeText l) := by
  constructor
  · intro h
    rcases mem_replaceChar _ _ _ _ h with h' | h'
    · exact absurd h' (by decide)
    · rcases mem_replaceChar _ _ _ _ h'.1 with h'' | h''
      · exact absurd h'' (by decide)
      · exact h''.2 rfl
  · intro h
    rcases mem_replaceChar _ _ _ _ h with h' | h'
    · exact absurd h' (by decide)
    · exact h'.2 rfl

theorem digitChar_not_angle (m : Nat) : digitChar m ≠ '<' ∧ digitChar m ≠ '>' := by
  unfold digitChar
  split <;> exact ⟨by decide, by decide⟩

theorem natRepr_not_angle (n : Nat) : '<' ∉ natRepr n ∧ '>' ∉ natRepr n := by
  induction n using Nat.strong_induction_on with
  | _ n ih =>
    rw [natRepr]
    by_cases h : n < 10
    · rw [dif_pos h]
      constructor
      · intro hc
        exact (digitChar_not_angle n).1 (List.mem_singleton.mp hc).symm
      · intro hc
        exact (digitChar_not_angle n).2 (List.mem_singleton.mp hc).symm
    · rw [dif_neg h]
      have ihd := ih (n / 10) (Nat.div_lt_self (by omega) (by decide))
      constructor
      · intro hc
        rcases List.mem_append.mp hc with h' | h'
        · exact ihd.1 h'
        · exact (digitChar_not_angle _).1 (List.mem_singleton.mp h').symm
      · intro hc
        rcases List.mem_append.mp hc with h' | h'
        · exact ihd.2 h'
        · exact (digitChar_not_angle _).2 (List.mem_singleton.mp h').symm

theorem extractTitle_noAngles (s : PSlide) : noAngles (extractTitle s) := by
  cases h : s.titleShapeText with
  | none => simp [extractTitle, h, noAngles]
  | some t =>
    rw [extractTitle, h]
    exact escapeText_noAngles _

theorem fallbackTitle_noAngles (n : Nat) : noAngles ("Slide ".toList ++ natRepr (n + 1)) := by
  constructor
  · intro hc
    rcases List.mem_append.mp hc with h' | h'
    · exact absurd h' (by decide)
    · exact (natRepr_not_angle _).1 h'
  · intro hc
    rcases List.mem_append.mp hc with h' | h'
    · exact absurd h' (by decide)
    · exact (natRepr_not_angle _).2 h'

theorem shapeStep_content_noAngles (n : Nat) (acc : List MediaAsset × List ContentItem)
    (sh : ShapeKind) (hacc : ∀ it ∈ acc.2, noAngles it.text) :
    ∀ it ∈ (shapeStep n acc sh).2, noAngles it.text := by
  intro it hit
  cases sh with
  | image blob =>
    cases blob with
    | ok data => exact hacc it hit
    | err msg => exact hacc it hit
  | other => exact hacc it hit
  | textFrame paras =>
    simp only [shapeStep] at hit
    rcases List.mem_append.mp hit with h' | h'
    · exact hacc it h'
    · obtain ⟨p, hp, hfp⟩ := List.mem_filterMap.mp h'
      by_cases he : (pyStrip p.2).isEmpty
      · simp [he] at hfp
      · simp only [he, if_neg, Bool.false_eq_true] at hfp
        rw [if_neg (by simp [he])] at hfp
        cases Option.some.inj hfp
        exact escapeText_noAngles _
  | flatText raw =>
    simp only [shapeStep] at hit
    by_cases he : (pyStrip raw).isEmpty
    · rw [if_pos he] at hit
      exact hacc it hit
    · rw [if_neg he] at hit
      by_cases hn : (pyStrip raw).contains '\n'
      · rw [if_pos hn] at hit
        rcases List.mem_append.mp hit with h' | h'
        · exact hacc it h'
        · obtain ⟨ln, hln, hfl⟩ := List.mem_filterMap.mp h'
          by_cases he2 : (pyStrip ln).isEmpty
          · simp [he2] at hfl
          · rw [if_neg (by simp [he2])] at hfl
            cases Option.some.inj hfl
            exact escapeText_noAngles _
      · rw [if_neg hn] at hit
        rcases List.mem_append.mp hit with h' | h'
        · exact hacc it h'
        · cases List.mem_singleton.mp h'
          exact escapeText_noAngles _

theorem foldl_shapeStep_content_noAngles (n : Nat) (shapes : List ShapeKind) :
    ∀ (acc : List MediaAsset × List ContentItem),
      (∀ it ∈ acc.2, noAngles it.text) →
      ∀ it ∈ (shapes.foldl (shapeStep n) acc).2, noAngles it.text := by
  induction shapes with
  | nil => intro acc h it hit; exact h it hit
  | cons sh rest ih =>
    intro acc hacc
    rw [List.foldl_cons]
    exact ih _ (shapeStep_content_noAngles n acc sh hacc)

/-- C2, amended: every Slide produced by the deck extractor has a title and
content entries free of raw `<`/`>` (the escaping is applied during
construction); the notes field and the plain-markup extractor's fields are
not escaped (see the C2 counterexample). -/
theorem c2_amended (s : PSlide) (n : Nat) :
    noAngles (parsePowerpointSlide s n).1.title
      ∧ ∀ it ∈ (parsePowerpointSlide s n).1.content, noAngles it.text := by
  constructor
  · simp only [parsePowerpointSlide]
    by_cases h : (extractTitle s).isEmpty
    · rw [if_pos h]
      exact fallbackTitle_noAngles n
    · rw [if_neg h]
      exact extractTitle_noAngles s
  · simp only [parsePowerpointSlide]
    exact foldl_shapeStep_content_noAngles n s.shapes ([], []) (by intro it hit; cases hit)

/-- C2, amended, witness: the amended theorem applied to a concrete slide
whose title and paragraph text contain angle brackets. -/
theorem c2_amended_witness :
    noAngles (parsePowerpointSlide
        { titleShapeText := some ('a' :: '<' :: 'b' :: []),
          shapes := [.textFrame [(0, 'x' :: '>' :: 'y' :: [])]] } 0).1.title :=
  (c2_amended { titleShapeText := some ('a' :: '<' :: 'b' :: []),
                shapes := [.textFrame [(0, 'x' :: '>' :: 'y' :: [])]] } 0).1

theorem slideTypeOf_eq_specClassify (n : Nat) (t : List Char) (c : List ContentItem) :
    slideTypeOf n t c = specClassify n t.isEmpty c.length := by
  rw [slideTypeOf, specClassify]
  by_cases hn : n = 0
  · simp [hn]
  · rw [if_neg hn, if_neg hn]
    have hce : c.isEmpty = decide (c.length = 0) := by cases c <;> simp
    rw [hce]

/-- C3, amended: the deck extractor's slideType is exactly the claimed
deterministic function of (ordinal, extracted-title emptiness, content
length): ordinal 0 gives "title"; otherwise empty content with a non-empty
title gives "section"; otherwise more than 3 content entries gives
"bullets"; otherwise "default".  The plain-markup extractor instead assigns
the type from the line marker (see the C3 counterexample). -/
theorem c3_amended (s : PSlide) (n : Nat) :
    (parsePowerpointSlide s n).1.slide_type =
      specClassify n (extractTitle s).isEmpty (parsePowerpointSlide s n).1.content.length := by
  simp only [parsePowerpointSlide]
  exact slideTypeOf_eq_specClassify n (extractTitle s) _

/-- C4: for a slide carrying three images whose second blob read throws, the
produced Slide has exactly the two image references of images 1 and 3 (named
with per-slide ordinals 1 and 2), the staged assets pair those filenames
with the first and third blobs, and the overall conversion still succeeds. -/
theorem c4_image_isolation (n : Nat) (b1 b3 : List Nat) (e : List Char)
    (tOpt nOpt : Option (List Char)) (stem author : List Char) :
    (parsePowerpointSlide
        { titleShapeText := tOpt,
          shapes := [.image (.ok b1), .image (.err e), .image (.ok b3)],
          notesText := nOpt } n).1.images
        = [imageFilename n 1, imageFilename n 2]
      ∧ (parsePowerpointSlide
          { titleShapeText := tOpt,
            shapes := [.image (.ok b1), .image (.err e), .image (.ok b3)],
            notesText := nOpt } n).2
        = [{ filename := imageFilename n 1, data := b1 },
           { filename := imageFilename n 2, data := b3 }]
      ∧ ∃ out,
          (convertPowerpointToSlidev true
              [{ titleShapeText := tOpt,
                 shapes := [.image (.ok b1), .image (.err e), .image (.ok b3)],
                 notesText := nOpt }] stem author).1 = .ok out := by
  refine ⟨rfl, rfl, ⟨_, rfl⟩⟩

theorem renderSlide_exists_tail (s : SlideContent) :
    ∃ l, convertSlideToMarkdown s = '\n' :: l := by
  rw [convertSlideToMarkdown]
  by_cases h1 : s.slide_type = "title".toList
  · rw [if_pos h1]
    exact ⟨_, rfl⟩
  · rw [if_neg h1]
    by_cases h2 : s.slide_type = "section".toList
    · rw [if_pos h2]
      exact ⟨_, rfl⟩
    · rw [if_neg h2]
      exact ⟨_, rfl⟩

theorem beq_sep_false_of_newline_head (l : List Char) : (('\n' :: l) == sepBlock) = false := rfl

theorem render_ne_sep (s : SlideContent) : (convertSlideToMarkdown s == sepBlock) = false := by
  obtain ⟨l, hl⟩ := renderSlide_exists_tail s
  rw [hl]
  exact beq_sep_false_of_newline_head l

theorem closing_ne_sep (a : List Char) : (addClosingSlide a == sepBlock) = false := rfl

theorem fm_ne_sep (t a : List Char) : (generateFrontmatter t a == sepBlock) = false := rfl

theorem enumFrom_flatMap_pos (rest : List SlideContent) :
    ∀ k, 0 < k →
      (List.enumFrom k rest).flatMap
          (fun p => (if 0 < p.1 then [sepBlock] else []) ++ [convertSlideToMarkdown p.2])
        = rest.flatMap (fun s => [sepBlock, convertSlideToMarkdown s]) := by
  induction rest with
  | nil => intro k hk; rfl
  | cons s r ih =>
    intro k hk
    rw [List.enumFrom, List.flatMap_cons, List.flatMap_cons, if_pos hk, ih (k + 1) (by omega)]
    rfl

theorem assembleBlocks_explicit (t a : List Char) (s0 : SlideContent)
    (rest : List SlideContent) :
    assembleBlocks t a (s0 :: rest) =
      generateFrontmatter t a :: convertSlideToMarkdown s0 ::
        (rest.flatMap (fun s => [sepBlock, convertSlideToMarkdown s])
          ++ [sepBlock, addClosingSlide a]) := by
  rw [assembleBlocks, List.enum_cons, List.flatMap_cons,
    enumFrom_flatMap_pos rest 1 (by omega)]
  simp

theorem countP_flatMap_sep (rest : List SlideContent) :
    (rest.flatMap (fun s => [sepBlock, convertSlideToMarkdown s])).countP
        (fun b => b == sepBlock) = rest.length := by
  induction rest with
  | nil => rfl
  | cons s r ih =>
    rw [List.flatMap_cons, List.countP_append, ih]
    simp [List.countP_cons, render_ne_sep s]
    omega

/-- C5: for a non-empty list of extracted slides, the assembled block list
is the header, then the first slide's fragment with no separator before it,
then each further slide's fragment preceded by a `---` separator, then the
final separator and the closing slide; consequently, for N slides the block
list contains exactly N separator blocks (the last being the closing
separator), all joined with a single newline by the assembler. -/
theorem c5_assembly (t a : List Char) (s0 : SlideContent) (rest : List SlideContent) :
    assembleBlocks t a (s0 :: rest) =
        generateFrontmatter t a :: convertSlideToMarkdown s0 ::
          (rest.flatMap (fun s => [sepBlock, convertSlideToMarkdown s])
            ++ [sepBlock, addClosingSlide a])
      ∧ (assembleBlocks t a (s0 :: rest)).countP (fun b => b == sepBlock)
          = (s0 :: rest).length := by
  refine ⟨assembleBlocks_explicit t a s0 rest, ?_⟩
  rw [assembleBlocks_explicit t a s0 rest]
  simp [List.countP_cons, List.countP_append, countP_flatMap_sep,
    fm_ne_sep, render_ne_sep, closing_ne_sep]
